import Mathlib

/-!
Verification of the Somnolence-and-Emotion-Detection repository.

The drowsiness state machine of `detector.py` is embedded as a step
function over a state record (`frame_counter`, `alarm_on`), with the
per-frame observation being either `none` (no face detected this frame)
or the pair of eye-aspect-ratio values for the left and right eye.
EAR threshold comparisons are modelled over `ℚ` (the threshold 0.25 is
exactly representable). The geometric EAR computation itself
(`eye_aspect_ratio`) is embedded over `ℝ`, since it takes square roots of
integer pixel coordinates. `color_mapper.py` and `emotion_detector.py`
are embedded directly.
-/

namespace Detector

/-- Threshold `EYE_AR_THRESH = 0.25` from detector.py line 32. -/
def EYE_AR_THRESH : ℚ := 25 / 100

/-- Frame threshold `EYE_AR_CONSEC_FRAMES = 35` from detector.py line 34. -/
def EYE_AR_CONSEC_FRAMES : Nat := 35

/-- The mutable loop state of detector.py (lines 102-104):
`frame_counter` and `alarm_on`. -/
structure DetectorState where
  frame_counter : Nat
  alarm_on : Bool
deriving DecidableEq, Repr

/-- Initial state: `frame_counter = 0`, `alarm_on = False` (lines 103-104). -/
def initState : DetectorState := ⟨0, false⟩

/-- The observable sound side effect of one frame: `pygame.mixer.music.play(-1)`
(looped start, line 164), `pygame.mixer.music.stop()` (line 176), or nothing. -/
inductive SoundAction where
  | start
  | stop
  | noop
deriving DecidableEq, Repr

/-- One face-processing step of the main loop (detector.py lines 152-176),
given the two computed EAR values. If both EARs are below `EYE_AR_THRESH`
the counter is incremented and, once it reaches `EYE_AR_CONSEC_FRAMES`,
the alarm is switched on (starting looped sound only on the transition);
otherwise the counter is reset to 0 and the alarm, if on, is switched off
and the sound stopped. -/
def stepFace (s : DetectorState) (leftEAR rightEAR : ℚ) :
    DetectorState × SoundAction :=
  if leftEAR < EYE_AR_THRESH ∧ rightEAR < EYE_AR_THRESH then
    let c := s.frame_counter + 1
    if EYE_AR_CONSEC_FRAMES ≤ c then
      if s.alarm_on then
        (⟨c, true⟩, SoundAction.noop)
      else
        (⟨c, true⟩, SoundAction.start)
    else
      (⟨c, s.alarm_on⟩, SoundAction.noop)
  else
    if s.alarm_on then
      (⟨0, false⟩, SoundAction.stop)
    else
      (⟨0, false⟩, SoundAction.noop)

/-- One whole-frame step: with no detected face (`rects` empty, line 122) the
`for rect in rects` body (lines 125-182) does not run, so the state is
untouched and no sound call happens; with a face, `stepFace` runs on the
two EARs. -/
def stepFrame (s : DetectorState) (obs : Option (ℚ × ℚ)) :
    DetectorState × SoundAction :=
  match obs with
  | none => (s, SoundAction.noop)
  | some (l, r) => stepFace s l r

/-- Run the main loop over a list of per-frame observations, collecting the
final state and the list of per-frame sound actions. -/
def run (s : DetectorState) :
    List (Option (ℚ × ℚ)) → DetectorState × List SoundAction
  | [] => (s, [])
  | o :: os =>
    ((run (stepFrame s o).1 os).1,
     (stepFrame s o).2 :: (run (stepFrame s o).1 os).2)

/-- The both-eyes-closed condition of line 152. -/
def lowObs (p : ℚ × ℚ) : Prop :=
  p.1 < EYE_AR_THRESH ∧ p.2 < EYE_AR_THRESH

instance (p : ℚ × ℚ) : Decidable (lowObs p) := by
  unfold lowObs; infer_instance

lemma stepFace_low (c : Nat) (l r : ℚ)
    (h : l < EYE_AR_THRESH ∧ r < EYE_AR_THRESH) :
    stepFace ⟨c, decide (EYE_AR_CONSEC_FRAMES ≤ c)⟩ l r =
      (⟨c + 1, decide (EYE_AR_CONSEC_FRAMES ≤ c + 1)⟩,
       if c + 1 = EYE_AR_CONSEC_FRAMES then SoundAction.start
       else SoundAction.noop) := by
  unfold stepFace
  rw [if_pos h]
  by_cases h35 : EYE_AR_CONSEC_FRAMES ≤ c + 1
  · rw [if_pos h35]
    by_cases hc : EYE_AR_CONSEC_FRAMES ≤ c
    · have hne : ¬ (c + 1 = EYE_AR_CONSEC_FRAMES) := by
        unfold EYE_AR_CONSEC_FRAMES at *; omega
      simp [hc, h35, hne]
    · have heq : c + 1 = EYE_AR_CONSEC_FRAMES := by
        unfold EYE_AR_CONSEC_FRAMES at *; omega
      simp [hc, h35, heq]
  · rw [if_neg h35]
    have hc : ¬ EYE_AR_CONSEC_FRAMES ≤ c := by omega
    have hne : ¬ (c + 1 = EYE_AR_CONSEC_FRAMES) := by omega
    simp [hc, h35, hne]

lemma stepFace_high (s : DetectorState) (l r : ℚ)
    (h : ¬ (l < EYE_AR_THRESH ∧ r < EYE_AR_THRESH)) :
    stepFace s l r =
      (⟨0, false⟩,
       if s.alarm_on then SoundAction.stop else SoundAction.noop) := by
  unfold stepFace
  rw [if_neg h]
  cases hs : s.alarm_on <;> simp [hs]

lemma run_append (s : DetectorState) (xs ys : List (Option (ℚ × ℚ))) :
    run s (xs ++ ys) =
      ((run (run s xs).1 ys).1, (run s xs).2 ++ (run (run s xs).1 ys).2) := by
  induction xs generalizing s with
  | nil => simp [run]
  | cons x xs ih => simp [run, ih]

/-- Running any number of both-eyes-low frames from a state whose alarm flag
agrees with `counter ≥ threshold` just advances the counter, keeping the
flag in agreement. -/
lemma run_low_state (L : List (ℚ × ℚ)) (hlow : ∀ p ∈ L, lowObs p) (c : Nat) :
    (run ⟨c, decide (EYE_AR_CONSEC_FRAMES ≤ c)⟩ (L.map some)).1 =
      ⟨c + L.length, decide (EYE_AR_CONSEC_FRAMES ≤ c + L.length)⟩ := by
  induction L generalizing c with
  | nil => simp [run]
  | cons p L ih =>
    have hp := hlow p (List.mem_cons_self p L)
    have hrest : ∀ q ∈ L, lowObs q := fun q hq => hlow q (List.mem_cons_of_mem p hq)
    have harith : c + 1 + L.length = c + (L.length + 1) := by omega
    simp only [List.map_cons, run, stepFrame, stepFace_low c p.1 p.2 hp,
      List.length_cons]
    rw [ih hrest (c + 1), harith]

/-- Over a low run from a flag-consistent state, the looped sound is started
exactly once if the counter crosses the threshold during the run, and never
otherwise. -/
lemma run_low_count (L : List (ℚ × ℚ)) (hlow : ∀ p ∈ L, lowObs p) (c : Nat) :
    ((run ⟨c, decide (EYE_AR_CONSEC_FRAMES ≤ c)⟩ (L.map some)).2.count
        SoundAction.start) =
      if c < EYE_AR_CONSEC_FRAMES ∧ EYE_AR_CONSEC_FRAMES ≤ c + L.length then 1
      else 0 := by
  induction L generalizing c with
  | nil =>
    simp only [List.map_nil, run, List.count_nil, List.length_nil]
    split_ifs with h
    · omega
    · rfl
  | cons p L ih =>
    have hp := hlow p (List.mem_cons_self p L)
    have hrest : ∀ q ∈ L, lowObs q := fun q hq => hlow q (List.mem_cons_of_mem p hq)
    simp only [List.map_cons, run, stepFrame, stepFace_low c p.1 p.2 hp,
      List.length_cons, List.count_cons, ih hrest (c + 1)]
    by_cases he : c + 1 = EYE_AR_CONSEC_FRAMES
    · simp only [he, if_pos rfl]
      norm_num
      split_ifs <;> first | contradiction | omega
    · simp only [if_neg he]
      norm_num
      split_ifs <;> first | contradiction | omega

/-- C1: starting from `frame_counter = 0`, `alarm_on = False`, a run of at
least 35 consecutive frames in which both eyes' EAR is below
`EYE_AR_THRESH` has `alarm_on = False` after every strict prefix of fewer
than 35 frames, `alarm_on = True` right after the 35th low frame, and the
looped alarm sound is started exactly once in the whole run. -/
theorem alarm_starts_exactly_on_frame_35 (L : List (ℚ × ℚ))
    (hlow : ∀ p ∈ L, lowObs p)
    (hlen : EYE_AR_CONSEC_FRAMES ≤ L.length) :
    (∀ k, k < EYE_AR_CONSEC_FRAMES →
        (run initState ((L.take k).map some)).1.alarm_on = false) ∧
    (run initState ((L.take EYE_AR_CONSEC_FRAMES).map some)).1.alarm_on = true ∧
    (run initState (L.map some)).2.count SoundAction.start = 1 := by
  have hT : EYE_AR_CONSEC_FRAMES = 35 := rfl
  have hinit : initState = ⟨0, decide (EYE_AR_CONSEC_FRAMES ≤ 0)⟩ := rfl
  refine ⟨?_, ?_, ?_⟩
  · intro k hk
    have hlowk : ∀ p ∈ L.take k, lowObs p :=
      fun p hp => hlow p (List.take_subset k L hp)
    rw [hinit, run_low_state (L.take k) hlowk 0]
    have hlenk : (L.take k).length ≤ k := by
      rw [List.length_take]; omega
    exact decide_eq_false (by omega)
  · have hlowk : ∀ p ∈ L.take EYE_AR_CONSEC_FRAMES, lowObs p :=
      fun p hp => hlow p (List.take_subset EYE_AR_CONSEC_FRAMES L hp)
    rw [hinit, run_low_state _ hlowk 0]
    have hlenk : (L.take EYE_AR_CONSEC_FRAMES).length = EYE_AR_CONSEC_FRAMES := by
      rw [List.length_take]; omega
    exact decide_eq_true (by omega)
  · rw [hinit, run_low_count L hlow 0]
    rw [if_pos (by omega)]

/-- Witness for C1: 40 concrete both-eyes-low frames (EAR 0.1 on each eye)
start the looped sound exactly once. -/
theorem alarm_starts_exactly_on_frame_35_witness :
    (run initState
        ((List.replicate 40 ((1 : ℚ)/10, (1 : ℚ)/10)).map some)).2.count
      SoundAction.start = 1 :=
  (alarm_starts_exactly_on_frame_35
    (List.replicate 40 ((1 : ℚ)/10, (1 : ℚ)/10))
    (fun p hp => by
      rw [List.eq_of_mem_replicate hp]
      exact ⟨by norm_num [EYE_AR_THRESH], by norm_num [EYE_AR_THRESH]⟩)
    (by norm_num [EYE_AR_CONSEC_FRAMES])).2.2

/-- C2: from the initial state, 34 consecutive both-eyes-low frames followed
by one frame with at least one eye at or above threshold never set
`alarm_on`: it is `False` after every prefix, and the final frame resets the
counter to 0. -/
theorem no_alarm_after_34_low_then_recovery (L : List (ℚ × ℚ)) (p : ℚ × ℚ)
    (hlow : ∀ q ∈ L, lowObs q)
    (hlen : L.length = EYE_AR_CONSEC_FRAMES - 1)
    (hhigh : ¬ lowObs p) :
    (∀ k, k ≤ L.length + 1 →
        (run initState (((L ++ [p]).take k).map some)).1.alarm_on = false) ∧
    (run initState ((L ++ [p]).map some)).1 = ⟨0, false⟩ := by
  have hT : EYE_AR_CONSEC_FRAMES = 35 := rfl
  have hinit : initState = ⟨0, decide (EYE_AR_CONSEC_FRAMES ≤ 0)⟩ := rfl
  have hstateL : (run initState (L.map some)).1 =
      ⟨0 + L.length, decide (EYE_AR_CONSEC_FRAMES ≤ 0 + L.length)⟩ := by
    rw [hinit, run_low_state L hlow 0]
  have hfull : (run initState ((L ++ [p]).map some)).1 = ⟨0, false⟩ := by
    rw [List.map_append, run_append, hstateL]
    simp only [List.map_cons, List.map_nil, run, stepFrame,
      stepFace_high _ p.1 p.2 hhigh]
  refine ⟨?_, hfull⟩
  intro k hk
  rcases Nat.lt_or_ge k (L.length + 1) with hklt | hkge
  · have hkle : k ≤ L.length := by omega
    rw [List.take_append_of_le_length hkle]
    have hlowk : ∀ q ∈ L.take k, lowObs q :=
      fun q hq => hlow q (List.take_subset k L hq)
    rw [hinit, run_low_state (L.take k) hlowk 0]
    have hlenk : (L.take k).length ≤ L.length := by
      rw [List.length_take]; omega
    exact decide_eq_false (by omega)
  · have hk1 : k = L.length + 1 := by omega
    have hlnk : (L ++ [p]).length ≤ k := by simp [hk1]
    rw [List.take_of_length_le hlnk, hfull]

/-- Witness for C2: 34 concrete low frames then one frame with the left eye
at EAR 0.3 end with counter 0 and alarm off. -/
theorem no_alarm_after_34_low_then_recovery_witness :
    (run initState
        ((List.replicate 34 ((1 : ℚ)/10, (1 : ℚ)/10) ++
          [((3 : ℚ)/10, (1 : ℚ)/10)]).map some)).1 = ⟨0, false⟩ :=
  (no_alarm_after_34_low_then_recovery
    (List.replicate 34 ((1 : ℚ)/10, (1 : ℚ)/10)) ((3 : ℚ)/10, (1 : ℚ)/10)
    (fun q hq => by
      rw [List.eq_of_mem_replicate hq]
      exact ⟨by norm_num [EYE_AR_THRESH], by norm_num [EYE_AR_THRESH]⟩)
    (by norm_num [EYE_AR_CONSEC_FRAMES])
    (fun hc => absurd hc.1 (by norm_num [EYE_AR_THRESH]))).2

/-- C3: from any state, a single frame in which at least one eye's EAR is at
or above `EYE_AR_THRESH` resets the counter to 0 and the alarm flag to
`False`, and the sound is stopped exactly when the alarm was on. -/
theorem single_open_eye_frame_resets (s : DetectorState) (l r : ℚ)
    (h : EYE_AR_THRESH ≤ l ∨ EYE_AR_THRESH ≤ r) :
    (stepFace s l r).1 = ⟨0, false⟩ ∧
    ((stepFace s l r).2 = SoundAction.stop ↔ s.alarm_on = true) := by
  have hnl : ¬ (l < EYE_AR_THRESH ∧ r < EYE_AR_THRESH) := by
    rcases h with h | h
    · exact fun hc => absurd hc.1 (not_lt.mpr h)
    · exact fun hc => absurd hc.2 (not_lt.mpr h)
  rw [stepFace_high s l r hnl]
  cases hs : s.alarm_on <;> simp [hs]

/-- Witness for C3: a single recovery frame from counter 40 with the alarm
on resets the state and stops the sound. -/
theorem single_open_eye_frame_resets_witness :
    (stepFace ⟨40, true⟩ ((3 : ℚ)/10) ((1 : ℚ)/10)).1 = ⟨0, false⟩ ∧
    ((stepFace ⟨40, true⟩ ((3 : ℚ)/10) ((1 : ℚ)/10)).2 = SoundAction.stop ↔
      (true : Bool) = true) :=
  single_open_eye_frame_resets ⟨40, true⟩ ((3 : ℚ)/10) ((1 : ℚ)/10)
    (Or.inl (by norm_num [EYE_AR_THRESH]))

/-- The C4 invariant: the counter is a natural number (hence ≥ 0) and the
alarm flag is set iff the counter has reached `EYE_AR_CONSEC_FRAMES` since
the last reset to 0 (i.e. currently, as the counter only grows between
resets). -/
def Inv (s : DetectorState) : Prop :=
  0 ≤ s.frame_counter ∧
    (s.alarm_on = true ↔ EYE_AR_CONSEC_FRAMES ≤ s.frame_counter)

/-- C4: `Inv` holds in the initial state and is preserved by every per-frame
step, whichever branch (no face, both-eyes-low, or at-least-one-eye-high)
is taken. -/
theorem counter_alarm_invariant :
    Inv initState ∧
      ∀ (s : DetectorState) (obs : Option (ℚ × ℚ)),
        Inv s → Inv (stepFrame s obs).1 := by
  have hT : EYE_AR_CONSEC_FRAMES = 35 := rfl
  constructor
  · exact ⟨Nat.zero_le 0, by simp [initState, EYE_AR_CONSEC_FRAMES]⟩
  · rintro s obs ⟨-, hiff⟩
    match obs with
    | none => exact ⟨Nat.zero_le _, hiff⟩
    | some (l, r) =>
      by_cases hlr : l < EYE_AR_THRESH ∧ r < EYE_AR_THRESH
      · show Inv (stepFace s l r).1
        unfold stepFace
        rw [if_pos hlr]
        by_cases h1 : EYE_AR_CONSEC_FRAMES ≤ s.frame_counter + 1
        · rw [if_pos h1]
          cases hs : s.alarm_on <;>
            exact ⟨Nat.zero_le _, iff_of_true rfl h1⟩
        · rw [if_neg h1]
          refine ⟨Nat.zero_le _, ?_⟩
          constructor
          · intro ha
            exact absurd (Nat.le_succ_of_le (hiff.mp ha)) h1
          · intro hle
            exact absurd hle h1
      · show Inv (stepFace s l r).1
        rw [stepFace_high s l r hlr]
        exact ⟨Nat.zero_le _, by simp [EYE_AR_CONSEC_FRAMES]⟩

/-- Witness for C4: the invariant, established at the initial state by the
theorem itself, is preserved across one concrete both-eyes-low frame. -/
theorem counter_alarm_invariant_witness :
    Inv (stepFrame initState (some ((1 : ℚ)/10, (1 : ℚ)/10))).1 :=
  counter_alarm_invariant.2 initState (some ((1 : ℚ)/10, (1 : ℚ)/10))
    counter_alarm_invariant.1

/-- C10: a frame in which the face detector returns zero faces leaves the
drowsiness state completely unchanged and performs no sound call: in
particular an active alarm is neither reset nor silenced. -/
theorem no_face_frame_leaves_state_unchanged (s : DetectorState) :
    stepFrame s none = (s, SoundAction.noop) := rfl

end Detector

namespace EAR

/-- A 2D landmark point: integer pixel coordinates, as produced by
`shape.part(i).x`, `shape.part(i).y` (detector.py line 132). -/
abbrev Point := ℤ × ℤ

/-- Embeds `scipy.spatial.distance.euclidean` on 2D points (detector.py
line 23 import, used at lines 46-51). -/
noncomputable def euclidean (p q : Point) : ℝ :=
  Real.sqrt (((p.1 - q.1 : ℤ) : ℝ) ^ 2 + ((p.2 - q.2 : ℤ) : ℝ) ^ 2)

/-- Embeds `eye_aspect_ratio` from detector.py lines 38-56: two vertical
distances A, B, one horizontal distance C, and `ear = (A + B) / (2.0 * C)`
with no guard on C. -/
noncomputable def eye_aspect_ratio (eye : Fin 6 → Point) : ℝ :=
  let A := euclidean (eye 1) (eye 5)
  let B := euclidean (eye 2) (eye 4)
  let C := euclidean (eye 0) (eye 3)
  (A + B) / (2 * C)

/-- Left-eye slice start `lStart = 42` (detector.py line 79). -/
def lStart : Nat := 42

/-- Right-eye slice start `rStart = 36` (detector.py line 80). -/
def rStart : Nat := 36

/-- Embeds `leftEye = coords[lStart:lEnd]` (detector.py line 135). -/
def leftEyeOf (coords : Fin 68 → Point) : Fin 6 → Point :=
  fun i => coords ⟨lStart + i.val, by simp only [lStart]; omega⟩

/-- Embeds `rightEye = coords[rStart:rEnd]` (detector.py line 136). -/
def rightEyeOf (coords : Fin 68 → Point) : Fin 6 → Point :=
  fun i => coords ⟨rStart + i.val, by simp only [rStart]; omega⟩

/-- The per-face EAR computation of the main loop (detector.py lines
139-140): both calls are unconditional, with no zero-width check on the
eye slices. -/
noncomputable def faceEARs (coords : Fin 68 → Point) : ℝ × ℝ :=
  (eye_aspect_ratio (leftEyeOf coords), eye_aspect_ratio (rightEyeOf coords))

/-- C5: for every eye of 6 ordered points whose horizontal distance
d3 = dist(eye[0], eye[3]) is positive, eye_aspect_ratio returns exactly
(d1 + d2) / (2 * d3), where d1 = dist(eye[1], eye[5]) and
d2 = dist(eye[2], eye[4]). -/
theorem eye_aspect_ratio_exact (eye : Fin 6 → Point)
    (_h : 0 < euclidean (eye 0) (eye 3)) :
    eye_aspect_ratio eye =
      (euclidean (eye 1) (eye 5) + euclidean (eye 2) (eye 4)) /
        (2 * euclidean (eye 0) (eye 3)) := rfl

/-- A concrete eye whose horizontal landmark pair is 4 pixels apart. -/
def eyeExample : Fin 6 → Point :=
  fun i => if i.val = 3 then (4, 0) else (0, 0)

/-- Witness for C5 at a concrete eye with horizontal distance 4. -/
theorem eye_aspect_ratio_exact_witness :
    0 < euclidean (eyeExample 0) (eyeExample 3) ∧
    eye_aspect_ratio eyeExample =
      (euclidean (eyeExample 1) (eyeExample 5) +
        euclidean (eyeExample 2) (eyeExample 4)) /
        (2 * euclidean (eyeExample 0) (eyeExample 3)) := by
  have e0 : eyeExample 0 = ((0 : ℤ), (0 : ℤ)) := rfl
  have e3 : eyeExample 3 = ((4 : ℤ), (0 : ℤ)) := rfl
  have h4 : euclidean (eyeExample 0) (eyeExample 3) = 4 := by
    rw [e0, e3]
    unfold euclidean
    norm_num
    rw [show ((16 : ℝ)) = 4 ^ 2 by norm_num,
      Real.sqrt_sq (by norm_num : (0 : ℝ) ≤ 4)]
  have hpos : 0 < euclidean (eyeExample 0) (eyeExample 3) := by
    rw [h4]; norm_num
  exact ⟨hpos, eye_aspect_ratio_exact eyeExample hpos⟩

/-- C6: the division in eye_aspect_ratio is unguarded: there is an eye whose
landmarks 0 and 3 coincide, making the horizontal distance — and thus the
divisor 2*C — zero, and the main loop applies eye_aspect_ratio to the raw
eye slices of every detected face with no guard on such inputs. -/
theorem ear_division_unguarded :
    (∃ eye : Fin 6 → Point, eye 0 = eye 3 ∧
        euclidean (eye 0) (eye 3) = 0 ∧ 2 * euclidean (eye 0) (eye 3) = 0) ∧
    ∀ coords : Fin 68 → Point,
      faceEARs coords =
        (eye_aspect_ratio (leftEyeOf coords),
         eye_aspect_ratio (rightEyeOf coords)) := by
  refine ⟨⟨fun _ => ((0 : ℤ), (0 : ℤ)), rfl, ?_, ?_⟩, fun coords => rfl⟩
  · unfold euclidean
    norm_num
  · unfold euclidean
    norm_num

end EAR

namespace ColorMapper

/-- The `color_map` dict of color_mapper.py (lines 20-28), as an
association list in source order. -/
def color_map : List (String × (Nat × Nat × Nat)) :=
  [("angry", (255, 0, 0)),
   ("disgust", (0, 128, 0)),
   ("fear", (128, 0, 128)),
   ("happy", (255, 255, 0)),
   ("sad", (0, 0, 255)),
   ("surprise", (255, 165, 0)),
   ("neutral", (255, 255, 255))]

/-- Embeds `get_color_for_emotion` (color_mapper.py line 33):
`color_map.get(emotion, (200, 200, 200))`. A `None` argument is never a
key of the string-keyed dict, so it takes the default. -/
def get_color_for_emotion (emotion : Option String) : Nat × Nat × Nat :=
  match emotion with
  | none => (200, 200, 200)
  | some e => (color_map.lookup e).getD (200, 200, 200)

/-- C7: get_color_for_emotion maps "happy" to (255, 255, 0), maps every
key of the fixed map to its triple, and maps `None` and every non-key
string to the default (200, 200, 200). -/
theorem get_color_for_emotion_spec :
    get_color_for_emotion (some "happy") = (255, 255, 0) ∧
    get_color_for_emotion none = (200, 200, 200) ∧
    (∀ kv ∈ color_map, get_color_for_emotion (some kv.1) = kv.2) ∧
    (∀ e : String, e ∉ color_map.map Prod.fst →
        get_color_for_emotion (some e) = (200, 200, 200)) := by
  refine ⟨by decide, rfl, by decide, ?_⟩
  intro e he
  simp only [color_map, List.map, List.mem_cons, List.not_mem_nil, or_false] at he
  push_neg at he
  obtain ⟨h1, h2, h3, h4, h5, h6, h7⟩ := he
  have b1 : (e == "angry") = false := beq_eq_false_iff_ne.mpr h1
  have b2 : (e == "disgust") = false := beq_eq_false_iff_ne.mpr h2
  have b3 : (e == "fear") = false := beq_eq_false_iff_ne.mpr h3
  have b4 : (e == "happy") = false := beq_eq_false_iff_ne.mpr h4
  have b5 : (e == "sad") = false := beq_eq_false_iff_ne.mpr h5
  have b6 : (e == "surprise") = false := beq_eq_false_iff_ne.mpr h6
  have b7 : (e == "neutral") = false := beq_eq_false_iff_ne.mpr h7
  simp [get_color_for_emotion, color_map, List.lookup,
    b1, b2, b3, b4, b5, b6, b7]

/-- Witness for C7: the unrecognized label "unknown" takes the default. -/
theorem get_color_for_emotion_spec_witness :
    get_color_for_emotion (some "unknown") = (200, 200, 200) :=
  get_color_for_emotion_spec.2.2.2 "unknown" (by decide)

end ColorMapper

namespace EmotionDetector

/-- One face's analysis record: the dominant_emotion field of one entry of
a DeepFace.analyze result. -/
structure FaceAnalysis where
  dominant_emotion : String
deriving DecidableEq, Repr

/-- Embeds `EmotionDetector.analyze_frame` (emotion_detector.py lines
30-64), with the outcome of the underlying `DeepFace.analyze` call as
input: either an exception (caught by the bare `except`, lines 60-64) or
the list of detected faces. An exception or an empty list yields `None`;
otherwise the first face's dominant emotion is returned. -/
def analyze_frame (result : Except String (List FaceAnalysis)) :
    Option String :=
  match result with
  | Except.error _ => none
  | Except.ok [] => none
  | Except.ok (f :: _) => some f.dominant_emotion

/-- C8: analyze_frame is a total function of the classifier outcome — a
raised exception and an empty result list both yield `none`, and a
nonempty result list yields the first face's dominant-emotion string. -/
theorem analyze_frame_never_propagates (e : String) (f : FaceAnalysis)
    (fs : List FaceAnalysis) :
    analyze_frame (Except.error e) = none ∧
    analyze_frame (Except.ok []) = none ∧
    analyze_frame (Except.ok (f :: fs)) = some f.dominant_emotion :=
  ⟨rfl, rfl, rfl⟩

end EmotionDetector

namespace StudyLamp

/-- Modelled from the spec: the combined variant's emotion sampler (the
combined-variant script itself is not under src/). Per spec section 4.3 it
runs the face/emotion classifier only every 15th frame; on a sampled frame
a successful classification overwrites the last-known emotion and a failed
one retains it; on every other frame the classifier is not invoked. The
returned Bool records whether the classifier was invoked on this frame. -/
def emotionSamplerStep (classifierResult : Option String)
    (frame_index : Nat) (last_emotion : String) : Bool × String :=
  if frame_index % 15 = 0 then
    match classifierResult with
    | some e => (true, e)
    | none => (true, last_emotion)
  else
    (false, last_emotion)

/-- C9: on every frame whose index is not a multiple of 15 the classifier
is not invoked and the last-known emotion label is unchanged. -/
theorem sampler_skips_non_multiples (i : Nat) (c : Option String)
    (last_emotion : String) (h : i % 15 ≠ 0) :
    emotionSamplerStep c i last_emotion = (false, last_emotion) := by
  unfold emotionSamplerStep
  rw [if_neg h]

/-- Witness for C9 at frame index 7. -/
theorem sampler_skips_non_multiples_witness :
    emotionSamplerStep (some "happy") 7 "neutral" = (false, "neutral") :=
  sampler_skips_non_multiples 7 (some "happy") "neutral" (by decide)

end StudyLamp
